import Mathlib

/-!
Verification of the mlmd_bench FillEvents workload
(`ml_metadata/tools/mlmd_bench/fill_events_workload.cc`).

Modelling conventions:
* int64 identifiers are `Int`; int64 sizes and counts are `Nat` (they are non-negative
  wherever the code uses them).
* `tensorflow::Status` is `Status` below, with the error codes the workload code inspects
  (`NOT_FOUND`, `ALREADY_EXISTS`) kept apart and every other code collapsed into `other`.
* The metadata store is an external collaborator.  It is modelled as a pair of functions:
  a per-artifact event query (`GetEventsByArtifactIDs` restricted to the single-id requests
  that this workload issues) and the batch write `PutEvents`.
* Randomness (`std::minstd_rand0`, the two `std::discrete_distribution`s built over the
  existing-node populations, and the uniform `num_events` distribution) is external to the
  verified logic.  Each iteration of the generation loop draws one artifact index and one
  execution index and immediately resolves them through the read-only node populations to a
  pair of ids; the loop is therefore modelled against an oracle stream `draws` of resolved
  `(artifact_id, execution_id)` pairs, one pair consumed per iteration, and each SetUp
  operation carries its drawn `num_events` alongside its stream.  An exhausted stream yields
  the distinguished `noFuel` outcome (the C++ loop would simply keep drawing).
-/

set_option maxHeartbeats 1000000

namespace MlMetadata

/-- Event type tag: the proto `Event::Type` restricted to the two values this workload emits. -/
inductive EventType where
  | INPUT
  | OUTPUT
  deriving DecidableEq

/-- Value of `FillEventsConfig::specification()` (proto enum with cases INPUT and OUTPUT). -/
inductive Specification where
  | INPUT
  | OUTPUT
  deriving DecidableEq

/-- Event record as used by the workload: `type`, `artifact_id`, `execution_id`, and the path,
whose steps are modelled by their key strings (`path().steps()`, each step carrying `key()`). -/
structure Event where
  type : EventType
  artifact_id : Int
  execution_id : Int
  path_steps : List String
  deriving DecidableEq

/-- Error codes the workload code distinguishes; every other tensorflow code is `other`. -/
inductive ErrorCode where
  | notFound
  | alreadyExists
  | other
  deriving DecidableEq

/-- tensorflow::Status: OK or an error carrying its code. -/
inductive Status where
  | ok
  | error (code : ErrorCode)
  deriving DecidableEq

/-- Modelled from the spec: the external metadata store collaborator (its implementation is not
under src/).  `getEventsByArtifactID` models `GetEventsByArtifactIDs` for the single-id requests
this workload issues: it returns the persisted events referencing the artifact, or fails; per the
spec interface `Query(existing events for artifact_id) -> list of events | NotFound`, a NotFound
outcome is the store's report that the artifact has no persisted events.  `putEvents` models
`PutEvents` (the batch-write operation), returning the store's outcome for a request. -/
structure MetadataStore where
  getEventsByArtifactID : Int → Except ErrorCode (List Event)
  putEvents : List Event → Status

/-- FillEventsConfig: the `specification()` selector and the inclusive `num_events` range. -/
structure FillEventsConfig where
  specification : Specification
  num_events_minimum : Nat
  num_events_maximum : Nat
  deriving DecidableEq

/-- CheckDuplicateOutputArtifactInCurrentSetUp from fill_events_workload.cc: reports true when
`output_artifact_id` is already in `output_artifact_ids`, and otherwise inserts it and reports
false.  The C++ `std::unordered_set<int64>` passed by reference is modelled as a membership
list returned as the second component. -/
def CheckDuplicateOutputArtifactInCurrentSetUp (output_artifact_id : Int)
    (output_artifact_ids : List Int) : Bool × List Int :=
  if output_artifact_id ∈ output_artifact_ids then
    (true, output_artifact_ids)
  else
    (false, output_artifact_id :: output_artifact_ids)

/-- CheckDuplicateOutputArtifactInDb from fill_events_workload.cc: queries the store for the
events referencing `output_artifact_id`; `TF_RETURN_IF_ERROR` propagates any query failure
unchanged; otherwise the result is ALREADY_EXISTS when some returned event has type OUTPUT and
OK when none does. -/
def CheckDuplicateOutputArtifactInDb (output_artifact_id : Int)
    (store : MetadataStore) : Status :=
  match store.getEventsByArtifactID output_artifact_id with
  | Except.error c => Status.error c
  | Except.ok events =>
      if events.any (fun e => decide (e.type = EventType.OUTPUT)) then
        Status.error ErrorCode.alreadyExists
      else
        Status.ok

/-- Total key length over a path's steps, mirroring `for (step : path.steps) bytes += step.key().size()`. -/
def sumKeyLengths : List String → Nat
  | [] => 0
  | k :: rest => k.length + sumKeyLengths rest

/-- GetTransferredBytes from fill_events_workload.cc: `8 * 2 + 1` fixed bytes plus the key size
of every step of the event's path. -/
def GetTransferredBytes (event : Event) : Nat :=
  8 * 2 + 1 + sumKeyLengths event.path_steps

/-- SetEvent from fill_events_workload.cc: appends to `put_request` one event whose type follows
`fill_events_config.specification()` (the switch; the enum is closed here, so the LOG(FATAL)
default branch is unreachable), carrying the given ids and a single path step with key "foo",
and adds the event's GetTransferredBytes to `curr_bytes`. -/
def SetEvent (fill_events_config : FillEventsConfig) (artifact_id : Int) (execution_id : Int)
    (put_request : List Event) (curr_bytes : Nat) : List Event × Nat :=
  let ty : EventType :=
    match fill_events_config.specification with
    | Specification.INPUT => EventType.INPUT
    | Specification.OUTPUT => EventType.OUTPUT
  let event : Event := ⟨ty, artifact_id, execution_id, ["foo"]⟩
  (put_request ++ [event], curr_bytes + GetTransferredBytes event)

/-- State threaded through GenerateEvent: the request under construction, the byte counter and
the run-scoped output-artifact id set (all three passed by reference in the C++). -/
structure GenState where
  put_request : List Event
  curr_bytes : Nat
  output_artifact_ids : List Int
  deriving DecidableEq

/-- Outcome of the GenerateEvent loop: normal completion (Status::OK), early return with an
error status, or `noFuel` when the modelled draw stream runs out while the C++ loop would keep
drawing. -/
inductive GenOutcome where
  | ok (s : GenState)
  | err (code : ErrorCode) (s : GenState)
  | noFuel (s : GenState)
  deriving DecidableEq

/-- State carried by any GenerateEvent outcome. -/
def GenOutcome.state : GenOutcome → GenState
  | GenOutcome.ok s => s
  | GenOutcome.err _ s => s
  | GenOutcome.noFuel s => s

/-- GenerateEvent's `while (i < num_events)` loop from fill_events_workload.cc, against the
oracle stream `draws` of resolved id pairs (see the header comment).  For an OUTPUT
specification an iteration first runs the run-scoped check (which also inserts the id), then
unconditionally the store check; a store failure whose code is not ALREADY_EXISTS is returned
(`if (!status.ok() && status.code() != tensorflow::error::ALREADY_EXISTS) return status;`),
otherwise `if (artifact_has_been_outputted_in_setup || !status.ok()) continue;` rejects the
draw, and an accepted draw is appended by SetEvent followed by `i++`. -/
def GenerateEventLoop (fill_events_config : FillEventsConfig) (store : MetadataStore)
    (num_events : Nat) :
    Nat → List (Int × Int) → List Int → List Event → Nat → GenOutcome
  | i, [], output_artifact_ids, put_request, curr_bytes =>
      if i < num_events then
        GenOutcome.noFuel ⟨put_request, curr_bytes, output_artifact_ids⟩
      else
        GenOutcome.ok ⟨put_request, curr_bytes, output_artifact_ids⟩
  | i, (artifact_id, execution_id) :: rest, output_artifact_ids, put_request, curr_bytes =>
      if i < num_events then
        if fill_events_config.specification = Specification.OUTPUT then
          let chk := CheckDuplicateOutputArtifactInCurrentSetUp artifact_id output_artifact_ids
          match CheckDuplicateOutputArtifactInDb artifact_id store with
          | Status.error c =>
              if c = ErrorCode.alreadyExists then
                GenerateEventLoop fill_events_config store num_events i rest chk.2
                  put_request curr_bytes
              else
                GenOutcome.err c ⟨put_request, curr_bytes, chk.2⟩
          | Status.ok =>
              if chk.1 then
                GenerateEventLoop fill_events_config store num_events i rest chk.2
                  put_request curr_bytes
              else
                let se := SetEvent fill_events_config artifact_id execution_id
                  put_request curr_bytes
                GenerateEventLoop fill_events_config store num_events (i + 1) rest chk.2
                  se.1 se.2
        else
          let se := SetEvent fill_events_config artifact_id execution_id put_request curr_bytes
          GenerateEventLoop fill_events_config store num_events (i + 1) rest
            output_artifact_ids se.1 se.2
      else
        GenOutcome.ok ⟨put_request, curr_bytes, output_artifact_ids⟩

/-- GenerateEvent from fill_events_workload.cc: the loop started at `i = 0`. -/
def GenerateEvent (fill_events_config : FillEventsConfig) (store : MetadataStore)
    (num_events : Nat) (draws : List (Int × Int)) (output_artifact_ids : List Int)
    (put_request : List Event) (curr_bytes : Nat) : GenOutcome :=
  GenerateEventLoop fill_events_config store num_events 0 draws output_artifact_ids
    put_request curr_bytes

/-- Member state written by SetUpImpl: `work_items_` (request and byte estimate pairs) and the
run-scoped `output_artifact_ids_` set. -/
structure SetUpState where
  work_items : List (List Event × Nat)
  output_artifact_ids : List Int
  deriving DecidableEq

/-- Outcome of SetUpImpl's loop, with the member state at the point of return. -/
inductive SetUpOutcome where
  | ok (st : SetUpState)
  | err (code : ErrorCode) (st : SetUpState)
  | noFuel (st : SetUpState)
  deriving DecidableEq

/-- Member state carried by any SetUp outcome. -/
def SetUpOutcome.state : SetUpOutcome → SetUpState
  | SetUpOutcome.ok st => st
  | SetUpOutcome.err _ st => st
  | SetUpOutcome.noFuel st => st

/-- SetUpImpl's per-operation `for` loop from fill_events_workload.cc.  Each operation resets
`curr_bytes = 0`, starts a fresh PutEventsRequest, draws `num_events` from the configured
uniform range (the drawn value is supplied in `ops` together with the operation's id-pair draw
stream), and runs GenerateEvent.  `TF_RETURN_IF_ERROR` aborts the loop on error — the work
items emplaced by earlier iterations remain in the member `work_items_` — and on success
`(put_request, curr_bytes)` is emplaced onto `work_items_`. -/
def SetUpLoop (fill_events_config : FillEventsConfig) (store : MetadataStore) :
    List (Nat × List (Int × Int)) → List Int → List (List Event × Nat) → SetUpOutcome
  | [], output_artifact_ids, work_items =>
      SetUpOutcome.ok ⟨work_items, output_artifact_ids⟩
  | (num_events, draws) :: rest, output_artifact_ids, work_items =>
      match GenerateEvent fill_events_config store num_events draws output_artifact_ids [] 0 with
      | GenOutcome.ok s =>
          SetUpLoop fill_events_config store rest s.output_artifact_ids
            (work_items ++ [(s.put_request, s.curr_bytes)])
      | GenOutcome.err c s => SetUpOutcome.err c ⟨work_items, s.output_artifact_ids⟩
      | GenOutcome.noFuel s => SetUpOutcome.noFuel ⟨work_items, s.output_artifact_ids⟩

/-- Modelled from the spec: the workload lifecycle wrapper (the Workload base class is not under
src/) marks a workload as set up only when SetUpImpl returns OK, and Run refuses a workload that
is not set up; hence pre-generated batches count as accepted work items only after a fully
successful SetUp ("Failure during any single batch's generation aborts SetUp entirely (no
partial workload is accepted)"). -/
def acceptedWorkItems : SetUpOutcome → List (List Event × Nat)
  | SetUpOutcome.ok st => st.work_items
  | SetUpOutcome.err _ _ => []
  | SetUpOutcome.noFuel _ => []

/-- FillEvents workload object: config, operation count, report name, the pre-generated work
items, and the run-scoped output-artifact id set. -/
structure FillEvents where
  fill_events_config : FillEventsConfig
  num_operations : Nat
  name : String
  work_items : List (List Event × Nat)
  output_artifact_ids : List Int
  deriving DecidableEq

/-- Specification_Name of the proto enum value. -/
def specificationName : Specification → String
  | Specification.INPUT => "INPUT"
  | Specification.OUTPUT => "OUTPUT"

/-- FillEvents constructor: records the config and operation count and builds the name
`"FILL_EVENTS_" + Specification_Name(specification)`; members start empty. -/
def FillEvents.mkWorkload (cfg : FillEventsConfig) (num_operations : Nat) : FillEvents :=
  ⟨cfg, num_operations, "FILL_EVENTS_" ++ specificationName cfg.specification, [], []⟩

/-- RunOpImpl from fill_events_workload.cc: copies `work_items_[work_items_index].first` into a
local request, calls the store's PutEvents on it and returns that status; the workload members
are left unchanged.  Vector indexing is modelled with getD (the harness passes only valid
indices). -/
def RunOpImpl (w : FillEvents) (work_items_index : Nat) (store : MetadataStore) :
    Status × FillEvents :=
  (store.putEvents (w.work_items.getD work_items_index ([], 0)).1, w)

/-- TearDownImpl from fill_events_workload.cc: clears `work_items_` and returns OK. -/
def TearDownImpl (w : FillEvents) : Status × FillEvents :=
  (Status.ok, { w with work_items := [] })

/-- GetName from fill_events_workload.cc. -/
def GetName (w : FillEvents) : String := w.name

/-- Number of OUTPUT events referencing artifact `a` in a list of events. -/
def countOutputEvents (events : List Event) (a : Int) : Nat :=
  events.countP (fun e => decide (e.type = EventType.OUTPUT ∧ e.artifact_id = a))

/-- Number of events referencing artifact `a` (of any type) in a list of events. -/
def countArtifactEvents (events : List Event) (a : Int) : Nat :=
  events.countP (fun e => decide (e.artifact_id = a))

/-- Concatenation of the requests of a work-item list: every event generated in those batches. -/
def allGeneratedEvents : List (List Event × Nat) → List Event
  | [] => []
  | wi :: rest => wi.1 ++ allGeneratedEvents rest

/-- Sum of the per-event byte estimates over a batch. -/
def batchTransferredBytes : List Event → Nat
  | [] => 0
  | e :: rest => GetTransferredBytes e + batchTransferredBytes rest

/-- An honest store with respect to a fixed list of persisted events: the per-artifact query
returns exactly the persisted events referencing that artifact. -/
def honestStore (store : MetadataStore) (storeEvents : List Event) : Prop :=
  ∀ a, store.getEventsByArtifactID a =
    Except.ok (storeEvents.filter (fun e => decide (e.artifact_id = a)))

/-- OUTPUT configuration drawing one event per operation, for concrete evaluations. -/
def outputConfig : FillEventsConfig := ⟨Specification.OUTPUT, 1, 1⟩

/-- INPUT configuration drawing two events per operation, for concrete evaluations. -/
def inputConfig : FillEventsConfig := ⟨Specification.INPUT, 2, 2⟩

/-- Store whose every artifact query fails with NOT_FOUND: per the spec's store interface this
is the store's report that the queried artifact has no persisted events at all. -/
def notFoundStore : MetadataStore :=
  ⟨fun _ => Except.error ErrorCode.notFound, fun _ => Status.ok⟩

/-- One persisted OUTPUT event referencing artifact 1, for concrete evaluations. -/
def sampleStoreEvents : List Event := [⟨EventType.OUTPUT, 1, 9, ["foo"]⟩]

/-- Honest store holding exactly `sampleStoreEvents`; PutEvents always succeeds. -/
def sampleStore : MetadataStore :=
  ⟨fun a => Except.ok (sampleStoreEvents.filter (fun e => decide (e.artifact_id = a))),
   fun _ => Status.ok⟩

/-- Store whose every artifact query fails with a non-NOT_FOUND, non-ALREADY_EXISTS code. -/
def failingStore : MetadataStore :=
  ⟨fun _ => Except.error ErrorCode.other, fun _ => Status.ok⟩

/-- One-event INPUT batch, for concrete evaluations. -/
def sampleBatch : List Event := [⟨EventType.INPUT, 1, 2, ["foo"]⟩]

/-- Workload holding one pre-generated batch, for concrete evaluations. -/
def runTestWorkload : FillEvents :=
  ⟨inputConfig, 1, "FILL_EVENTS_INPUT", [(sampleBatch, 20)], []⟩

/-- Two-event INPUT batch produced by `inputOps`, for concrete evaluations. -/
def inputBatch : List Event :=
  [⟨EventType.INPUT, 1, 1, ["foo"]⟩, ⟨EventType.INPUT, 2, 2, ["foo"]⟩]

/-- One SetUp operation drawing two events, for concrete evaluations. -/
def inputOps : List (Nat × List (Int × Int)) := [(2, [(1, 1), (2, 2)])]

/-- Membership in the run-scoped set only grows over the generation loop. -/
theorem genLoop_ids_mono (cfg : FillEventsConfig) (store : MetadataStore) (num : Nat) :
    ∀ (draws : List (Int × Int)) (i : Nat) (ids : List Int) (req : List Event) (b : Nat)
      (x : Int), x ∈ ids →
      x ∈ (GenerateEventLoop cfg store num i draws ids req b).state.output_artifact_ids := by
  intro draws
  induction draws with
  | nil =>
      intro i ids req b x hx
      simp only [GenerateEventLoop]
      split <;> simpa [GenOutcome.state] using hx
  | cons d rest ih =>
      obtain ⟨aid, eid⟩ := d
      intro i ids req b x hx
      have hchk : x ∈ (CheckDuplicateOutputArtifactInCurrentSetUp aid ids).2 := by
        by_cases hm : aid ∈ ids <;> simp [CheckDuplicateOutputArtifactInCurrentSetUp, hm, hx]
      simp only [GenerateEventLoop]
      by_cases hi : i < num
      · simp only [hi, if_true]
        by_cases hs : cfg.specification = Specification.OUTPUT
        · simp only [hs, if_true]
          rcases hdb : CheckDuplicateOutputArtifactInDb aid store with _ | c
          · by_cases hm1 : (CheckDuplicateOutputArtifactInCurrentSetUp aid ids).1
            · simpa [hm1] using ih i _ req b x hchk
            · simpa [hm1] using ih (i + 1) _ _ _ x hchk
          · by_cases hc : c = ErrorCode.alreadyExists
            · simpa [hc] using ih i _ req b x hchk
            · simpa [hc, GenOutcome.state] using hchk
        · simpa [hs] using ih (i + 1) ids _ _ x hx
      · simpa [hi, GenOutcome.state] using hx

/-- Claim C1: the claim says a "not found" store condition during the duplicate-output query is
treated as "artifact not yet used" and generation continues.  The code does the opposite: for a
candidate artifact with no persisted events (the store query reports NOT_FOUND),
CheckDuplicateOutputArtifactInDb propagates the NOT_FOUND status and GenerateEvent — whose early
return exempts only ALREADY_EXISTS — aborts synthesis with that error instead of treating the
artifact as unused. -/
theorem claim_C1_notFound_aborts_generation :
    CheckDuplicateOutputArtifactInDb 5 notFoundStore = Status.error ErrorCode.notFound ∧
    GenerateEvent outputConfig notFoundStore 1 [(5, 7)] [] [] 0 =
      GenOutcome.err ErrorCode.notFound ⟨[], 0, [5]⟩ :=
  ⟨rfl, rfl⟩

/-- Claim C7: RunOpImpl at a valid index dispatches exactly the i-th pre-generated batch to the
store's batch write, returns the store's outcome unchanged, and leaves the workload state (in
particular every stored batch) unmodified. -/
theorem claim_C7_run_dispatches_ith_batch (w : FillEvents) (i : Nat) (store : MetadataStore)
    (h : i < w.work_items.length) :
    (RunOpImpl w i store).1 = store.putEvents (w.work_items.get ⟨i, h⟩).1 ∧
    (RunOpImpl w i store).2 = w := by
  refine ⟨?_, rfl⟩
  simp [RunOpImpl, List.getD_eq_getElem?_getD, List.getElem?_eq_getElem h, List.get_eq_getElem]

/-- Claim C7 witness: dispatch of the only batch of a concrete workload. -/
theorem claim_C7_witness :
    (RunOpImpl runTestWorkload 0 sampleStore).1 = Status.ok ∧
    (RunOpImpl runTestWorkload 0 sampleStore).2 = runTestWorkload := by
  have h := claim_C7_run_dispatches_ith_batch runTestWorkload 0 sampleStore (by decide)
  exact ⟨h.1.trans rfl, h.2⟩

/-- Claim C8: TearDownImpl is idempotent — a second call returns the same (OK) status and the
same cleared state as the first, and after either call no pre-generated batches remain. -/
theorem claim_C8_teardown_idempotent (w : FillEvents) :
    TearDownImpl (TearDownImpl w).2 = TearDownImpl w ∧
    (TearDownImpl w).1 = Status.ok ∧
    (TearDownImpl w).2.work_items = [] :=
  ⟨rfl, rfl, rfl⟩

/-- Claim C10: in an OUTPUT run the store duplicate-output query runs for every drawn candidate,
including one the run-scoped set already rejected (`aid ∈ ids`): a store failure other than
ALREADY_EXISTS on such a candidate still aborts synthesis with that error. -/
theorem claim_C10_store_check_on_locally_rejected (cfg : FillEventsConfig)
    (store : MetadataStore) (num i : Nat) (aid eid : Int) (rest : List (Int × Int))
    (ids : List Int) (req : List Event) (b : Nat) (c : ErrorCode)
    (hs : cfg.specification = Specification.OUTPUT) (hi : i < num)
    (hmem : aid ∈ ids)
    (hdb : CheckDuplicateOutputArtifactInDb aid store = Status.error c)
    (hc : c ≠ ErrorCode.alreadyExists) :
    GenerateEventLoop cfg store num i ((aid, eid) :: rest) ids req b =
      GenOutcome.err c ⟨req, b, ids⟩ := by
  simp [GenerateEventLoop, hi, hs, hdb, hc, CheckDuplicateOutputArtifactInCurrentSetUp, hmem]

/-- Claim C10 witness: artifact 3 is already in the run-scoped set, yet the failing store's
error aborts the loop. -/
theorem claim_C10_witness :
    GenerateEventLoop outputConfig failingStore 1 0 [(3, 1)] [3] [] 0 =
      GenOutcome.err ErrorCode.other ⟨[], 0, [3]⟩ :=
  claim_C10_store_check_on_locally_rejected outputConfig failingStore 1 0 3 1 [] [3] [] 0
    ErrorCode.other rfl (by decide) (by decide) rfl (by decide)

/-- Claim C4, first part as a standalone step equation and second part as an error guarantee.
First: in an OUTPUT run with the batch still unfinished, when the store check does not hard-fail
(it returns OK or the ALREADY_EXISTS conflict), a drawn candidate is discarded and re-sampled —
same loop counter `i`, same request — exactly when the run-scoped set already holds the
artifact or the store check reports ALREADY_EXISTS, and is otherwise accepted (event appended,
counter advanced).  Second: the ALREADY_EXISTS conflict is consumed as a retry signal — no run
of the loop ever returns an ALREADY_EXISTS failure to the caller. -/
theorem claim_C4_rejection_iff_dup_or_already_exists :
    (∀ (cfg : FillEventsConfig) (store : MetadataStore) (num i : Nat) (aid eid : Int)
       (rest : List (Int × Int)) (ids : List Int) (req : List Event) (b : Nat),
       cfg.specification = Specification.OUTPUT → i < num →
       (CheckDuplicateOutputArtifactInDb aid store = Status.ok ∨
        CheckDuplicateOutputArtifactInDb aid store = Status.error ErrorCode.alreadyExists) →
       GenerateEventLoop cfg store num i ((aid, eid) :: rest) ids req b =
         if aid ∈ ids ∨ CheckDuplicateOutputArtifactInDb aid store
             = Status.error ErrorCode.alreadyExists then
           GenerateEventLoop cfg store num i rest
             (CheckDuplicateOutputArtifactInCurrentSetUp aid ids).2 req b
         else
           GenerateEventLoop cfg store num (i + 1) rest
             (CheckDuplicateOutputArtifactInCurrentSetUp aid ids).2
             (SetEvent cfg aid eid req b).1 (SetEvent cfg aid eid req b).2) ∧
    (∀ (cfg : FillEventsConfig) (store : MetadataStore) (num i : Nat)
       (draws : List (Int × Int)) (ids : List Int) (req : List Event) (b : Nat)
       (c : ErrorCode) (s : GenState),
       GenerateEventLoop cfg store num i draws ids req b = GenOutcome.err c s →
       c ≠ ErrorCode.alreadyExists) := by
  constructor
  · intro cfg store num i aid eid rest ids req b hs hi hdb
    by_cases hmem : aid ∈ ids
    · rcases hdb with hdb | hdb <;>
        simp [GenerateEventLoop, hi, hs, hdb, CheckDuplicateOutputArtifactInCurrentSetUp, hmem]
    · rcases hdb with hdb | hdb
      · have hne : CheckDuplicateOutputArtifactInDb aid store
            ≠ Status.error ErrorCode.alreadyExists := by simp [hdb]
        simp [GenerateEventLoop, hi, hs, hdb, CheckDuplicateOutputArtifactInCurrentSetUp,
          hmem, hne]
      · simp [GenerateEventLoop, hi, hs, hdb, CheckDuplicateOutputArtifactInCurrentSetUp, hmem]
  · intro cfg store num i draws
    induction draws generalizing i with
    | nil =>
        intro ids req b c s h
        simp only [GenerateEventLoop] at h
        split at h <;> simp at h
    | cons d rest ih =>
        obtain ⟨aid, eid⟩ := d
        intro ids req b c s h
        simp only [GenerateEventLoop] at h
        by_cases hi : i < num
        · simp only [hi, if_true] at h
          by_cases hs : cfg.specification = Specification.OUTPUT
          · simp only [hs, if_true] at h
            rcases hdb : CheckDuplicateOutputArtifactInDb aid store with _ | c2
            · simp only [hdb] at h
              by_cases hm1 : (CheckDuplicateOutputArtifactInCurrentSetUp aid ids).1
              · simp only [hm1, if_true] at h
                exact ih i _ _ _ _ _ h
              · simp only [hm1, if_false, Bool.false_eq_true] at h
                exact ih (i + 1) _ _ _ _ _ h
            · simp only [hdb] at h
              by_cases hc : c2 = ErrorCode.alreadyExists
              · simp only [hc, if_true] at h
                exact ih i _ _ _ _ _ h
              · simp only [hc, if_false] at h
                obtain ⟨rfl, -⟩ := GenOutcome.err.inj h
                exact hc
          · simp only [hs, if_false] at h
            exact ih (i + 1) _ _ _ _ _ h
        · simp only [hi, if_false] at h
          simp at h

/-- Claim C4 witness: artifact 1 already has an OUTPUT event in the honest sample store, so the
draw (1, 5) is discarded — the loop retries on the remaining stream with the same counter and
request. -/
theorem claim_C4_witness :
    GenerateEventLoop outputConfig sampleStore 1 0 [(1, 5), (2, 6)] [] [] 0 =
      if 1 ∈ ([] : List Int) ∨ CheckDuplicateOutputArtifactInDb 1 sampleStore
          = Status.error ErrorCode.alreadyExists then
        GenerateEventLoop outputConfig sampleStore 1 0 [(2, 6)]
          (CheckDuplicateOutputArtifactInCurrentSetUp 1 []).2 [] 0
      else
        GenerateEventLoop outputConfig sampleStore 1 1 [(2, 6)]
          (CheckDuplicateOutputArtifactInCurrentSetUp 1 []).2
          (SetEvent outputConfig 1 5 [] 0).1 (SetEvent outputConfig 1 5 [] 0).2 :=
  claim_C4_rejection_iff_dup_or_already_exists.1 outputConfig sampleStore 1 0 1 5 [(2, 6)]
    [] [] 0 rfl (by decide) (Or.inr rfl)

/-- Per-artifact event counts add over concatenation. -/
theorem countArtifactEvents_append (l1 l2 : List Event) (a : Int) :
    countArtifactEvents (l1 ++ l2) a = countArtifactEvents l1 a + countArtifactEvents l2 a := by
  simp [countArtifactEvents, List.countP_append]

/-- Claim C9, both halves.  First: in an OUTPUT run, processing a drawn candidate inserts its
artifact id into the run-scoped set no matter how the iteration ends (acceptance, local or
store rejection, or a hard store error — the insertion happens at the local check, before and
regardless of the store check).  Second: once an artifact id is in the run-scoped set, the rest
of the run appends no further event referencing it — so a candidate rejected only by the store
check can never be accepted as an OUTPUT target later in the same run. -/
theorem claim_C9_local_insert_before_store_check :
    (∀ (cfg : FillEventsConfig) (store : MetadataStore) (num i : Nat) (aid eid : Int)
       (rest : List (Int × Int)) (ids : List Int) (req : List Event) (b : Nat),
       cfg.specification = Specification.OUTPUT → i < num →
       aid ∈ (GenerateEventLoop cfg store num i ((aid, eid) :: rest)
         ids req b).state.output_artifact_ids) ∧
    (∀ (cfg : FillEventsConfig) (store : MetadataStore) (num i : Nat)
       (draws : List (Int × Int)) (aid : Int) (ids : List Int) (req : List Event) (b : Nat),
       cfg.specification = Specification.OUTPUT → aid ∈ ids →
       countArtifactEvents
           (GenerateEventLoop cfg store num i draws ids req b).state.put_request aid =
         countArtifactEvents req aid) := by
  constructor
  · intro cfg store num i aid eid rest ids req b hs hi
    have hchk : aid ∈ (CheckDuplicateOutputArtifactInCurrentSetUp aid ids).2 := by
      by_cases hm : aid ∈ ids <;> simp [CheckDuplicateOutputArtifactInCurrentSetUp, hm]
    simp only [GenerateEventLoop, hi, if_true, hs]
    rcases hdb : CheckDuplicateOutputArtifactInDb aid store with _ | c
    · by_cases hm1 : (CheckDuplicateOutputArtifactInCurrentSetUp aid ids).1
      · simpa [hm1] using genLoop_ids_mono cfg store num rest i _ req b aid hchk
      · simpa [hm1] using genLoop_ids_mono cfg store num rest (i + 1) _ _ _ aid hchk
    · by_cases hc : c = ErrorCode.alreadyExists
      · simpa [hc] using genLoop_ids_mono cfg store num rest i _ req b aid hchk
      · simpa [hc, GenOutcome.state] using hchk
  · intro cfg store num i draws
    induction draws generalizing i with
    | nil =>
        intro aid ids req b hs hmem
        simp only [GenerateEventLoop]
        split <;> simp [GenOutcome.state]
    | cons d rest ih =>
        obtain ⟨a2, e2⟩ := d
        intro aid ids req b hs hmem
        by_cases hi : i < num
        · simp only [GenerateEventLoop, hi, if_true, hs, if_pos rfl]
          by_cases hm2 : a2 ∈ ids
          · rcases hdb : CheckDuplicateOutputArtifactInDb a2 store with _ | c
            · simpa [CheckDuplicateOutputArtifactInCurrentSetUp, hm2] using
                ih i aid ids req b hs hmem
            · by_cases hc : c = ErrorCode.alreadyExists
              · simpa [CheckDuplicateOutputArtifactInCurrentSetUp, hm2, hc] using
                  ih i aid ids req b hs hmem
              · simp [CheckDuplicateOutputArtifactInCurrentSetUp, hm2, hc, GenOutcome.state]
          · have hne : a2 ≠ aid := fun h => hm2 (h ▸ hmem)
            have hmem2 : aid ∈ a2 :: ids := List.mem_cons_of_mem _ hmem
            rcases hdb : CheckDuplicateOutputArtifactInDb a2 store with _ | c
            · have hstep := ih (i + 1) aid (a2 :: ids)
                (SetEvent cfg a2 e2 req b).1 (SetEvent cfg a2 e2 req b).2 hs hmem2
              have hset : (SetEvent cfg a2 e2 req b).1 =
                  req ++ [⟨EventType.OUTPUT, a2, e2, ["foo"]⟩] := by
                simp [SetEvent, hs]
              rw [hset] at hstep
              have hone : countArtifactEvents
                  ([⟨EventType.OUTPUT, a2, e2, ["foo"]⟩] : List Event) aid = 0 := by
                simp [countArtifactEvents, List.countP_cons, hne]
              have hcnt : countArtifactEvents
                  (req ++ [⟨EventType.OUTPUT, a2, e2, ["foo"]⟩]) aid =
                  countArtifactEvents req aid := by
                rw [countArtifactEvents_append, hone, Nat.add_zero]
              simpa [CheckDuplicateOutputArtifactInCurrentSetUp, hm2, hset] using
                hstep.trans hcnt
            · by_cases hc : c = ErrorCode.alreadyExists
              · simpa [CheckDuplicateOutputArtifactInCurrentSetUp, hm2, hc] using
                  ih i aid (a2 :: ids) req b hs hmem2
              · simp [CheckDuplicateOutputArtifactInCurrentSetUp, hm2, hc, GenOutcome.state]
        · simp [GenerateEventLoop, hi, GenOutcome.state]

/-- Claim C9 witness: the freshly drawn artifact 5 is in the run-scoped set after the loop. -/
theorem claim_C9_witness :
    5 ∈ (GenerateEventLoop outputConfig sampleStore 1 0 [(5, 7)]
      [] [] 0).state.output_artifact_ids :=
  claim_C9_local_insert_before_store_check.1 outputConfig sampleStore 1 0 5 7 [] [] [] 0
    rfl (by decide)

/-- SetEvent grows the request by exactly one event. -/
theorem setEvent_length (cfg : FillEventsConfig) (a e : Int) (req : List Event) (b : Nat) :
    (SetEvent cfg a e req b).1.length = req.length + 1 := by
  simp [SetEvent]

/-- On normal completion the loop has appended exactly `num - i` events to the request. -/
theorem genLoop_ok_length (cfg : FillEventsConfig) (store : MetadataStore) (num : Nat) :
    ∀ (draws : List (Int × Int)) (i : Nat) (ids : List Int) (req : List Event) (b : Nat)
      (s : GenState),
      GenerateEventLoop cfg store num i draws ids req b = GenOutcome.ok s →
      s.put_request.length = req.length + (num - i) := by
  intro draws
  induction draws with
  | nil =>
      intro i ids req b s h
      by_cases hi : i < num
      · simp [GenerateEventLoop, hi] at h
      · simp only [GenerateEventLoop, hi, if_false] at h
        cases h
        show req.length = req.length + (num - i)
        omega
  | cons d rest ih =>
      obtain ⟨aid, eid⟩ := d
      intro i ids req b s h
      by_cases hi : i < num
      · simp only [GenerateEventLoop, hi, if_true] at h
        by_cases hs : cfg.specification = Specification.OUTPUT
        · simp only [hs, if_true] at h
          rcases hdb : CheckDuplicateOutputArtifactInDb aid store with _ | c
          · simp only [hdb] at h
            by_cases hm1 : (CheckDuplicateOutputArtifactInCurrentSetUp aid ids).1
            · simpa using ih i _ req b s (by simpa [hm1] using h)
            · have := ih (i + 1) _ _ _ s (by simpa [hm1] using h)
              rw [setEvent_length] at this
              omega
          · simp only [hdb] at h
            by_cases hc : c = ErrorCode.alreadyExists
            · simpa using ih i _ req b s (by simpa [hc] using h)
            · simp [hc] at h
        · have := ih (i + 1) ids _ _ s (by simpa [hs] using h)
          rw [setEvent_length] at this
          omega
      · simp only [GenerateEventLoop, hi, if_false] at h
        cases h
        show req.length = req.length + (num - i)
        omega

/-- On a successful SetUp loop, each operation contributed one batch, in order, whose length is
exactly that operation's drawn `num_events`. -/
theorem setUpLoop_ok_lengths (cfg : FillEventsConfig) (store : MetadataStore) :
    ∀ (ops : List (Nat × List (Int × Int))) (ids : List Int)
      (work : List (List Event × Nat)) (st : SetUpState),
      SetUpLoop cfg store ops ids work = SetUpOutcome.ok st →
      ∃ newItems, st.work_items = work ++ newItems ∧
        List.Forall₂ (fun (op : Nat × List (Int × Int)) (wi : List Event × Nat) =>
          wi.1.length = op.1) ops newItems := by
  intro ops
  induction ops with
  | nil =>
      intro ids work st h
      simp only [SetUpLoop] at h
      cases h
      exact ⟨[], by simp, List.Forall₂.nil⟩
  | cons op rest ih =>
      obtain ⟨n, draws⟩ := op
      intro ids work st h
      simp only [SetUpLoop] at h
      split at h
      next s hg =>
        obtain ⟨items, hw, hf⟩ := ih _ _ _ h
        refine ⟨(s.put_request, s.curr_bytes) :: items, ?_, List.Forall₂.cons ?_ hf⟩
        · simpa using hw
        · have hg2 : GenerateEventLoop cfg store n 0 draws ids [] 0 = GenOutcome.ok s := hg
          simpa using genLoop_ok_length cfg store n draws 0 ids [] 0 s hg2
      next c s hg => simp at h
      next s hg => simp at h

/-- Claim C3: for every batch of a successful SetUp, the number of events in the batch equals
exactly the `num_events` drawn from the configured uniform range for that operation, for every
configuration and store. -/
theorem claim_C3_batch_length_eq_num_events (cfg : FillEventsConfig) (store : MetadataStore)
    (ops : List (Nat × List (Int × Int))) (st : SetUpState)
    (_hrange : ∀ op ∈ ops, cfg.num_events_minimum ≤ op.1 ∧ op.1 ≤ cfg.num_events_maximum)
    (h : SetUpLoop cfg store ops [] [] = SetUpOutcome.ok st) :
    List.Forall₂ (fun (op : Nat × List (Int × Int)) (wi : List Event × Nat) =>
      wi.1.length = op.1) ops st.work_items := by
  obtain ⟨items, hw, hf⟩ := setUpLoop_ok_lengths cfg store ops [] [] st h
  simpa [hw] using hf

/-- Claim C3 witness: the single INPUT operation drawing 2 events yields one batch of 2. -/
theorem claim_C3_witness :
    List.Forall₂ (fun (op : Nat × List (Int × Int)) (wi : List Event × Nat) =>
      wi.1.length = op.1) inputOps
      (SetUpLoop inputConfig failingStore inputOps [] []).state.work_items :=
  claim_C3_batch_length_eq_num_events inputConfig failingStore inputOps
    (SetUpLoop inputConfig failingStore inputOps [] []).state (by decide) rfl

/-- Batch byte estimates add over concatenation. -/
theorem batchTransferredBytes_append (l1 l2 : List Event) :
    batchTransferredBytes (l1 ++ l2) =
      batchTransferredBytes l1 + batchTransferredBytes l2 := by
  induction l1 with
  | nil => simp [batchTransferredBytes]
  | cons e r ih => simp [batchTransferredBytes, ih]; omega

/-- The loop keeps `curr_bytes` equal to the sum of the per-event estimates of the request, and
every event of the request keeps the single "foo" path step. -/
theorem genLoop_bytes (cfg : FillEventsConfig) (store : MetadataStore) (num : Nat) :
    ∀ (draws : List (Int × Int)) (i : Nat) (ids : List Int) (req : List Event) (b : Nat),
      b = batchTransferredBytes req →
      (∀ e ∈ req, e.path_steps = ["foo"]) →
      (GenerateEventLoop cfg store num i draws ids req b).state.curr_bytes =
        batchTransferredBytes
          (GenerateEventLoop cfg store num i draws ids req b).state.put_request ∧
      ∀ e ∈ (GenerateEventLoop cfg store num i draws ids req b).state.put_request,
        e.path_steps = ["foo"] := by
  intro draws
  induction draws with
  | nil =>
      intro i ids req b hb hp
      simp only [GenerateEventLoop]
      split <;> simpa [GenOutcome.state] using ⟨hb, hp⟩
  | cons d rest ih =>
      obtain ⟨aid, eid⟩ := d
      intro i ids req b hb hp
      have hstep : ∀ ids2 : List Int,
          (GenerateEventLoop cfg store num (i + 1) rest ids2
            (SetEvent cfg aid eid req b).1 (SetEvent cfg aid eid req b).2).state.curr_bytes =
            batchTransferredBytes (GenerateEventLoop cfg store num (i + 1) rest ids2
              (SetEvent cfg aid eid req b).1 (SetEvent cfg aid eid req b).2).state.put_request ∧
          ∀ e ∈ (GenerateEventLoop cfg store num (i + 1) rest ids2
              (SetEvent cfg aid eid req b).1 (SetEvent cfg aid eid req b).2).state.put_request,
            e.path_steps = ["foo"] := by
        intro ids2
        refine ih (i + 1) ids2 (SetEvent cfg aid eid req b).1 (SetEvent cfg aid eid req b).2
          ?_ ?_
        · simp only [SetEvent]
          rw [batchTransferredBytes_append, hb]
          simp [batchTransferredBytes]
        · intro e he
          simp only [SetEvent, List.mem_append, List.mem_singleton] at he
          rcases he with he | rfl
          · exact hp e he
          · rfl
      by_cases hi : i < num
      · simp only [GenerateEventLoop, hi, if_true]
        by_cases hs : cfg.specification = Specification.OUTPUT
        · simp only [hs, if_true]
          rcases hdb : CheckDuplicateOutputArtifactInDb aid store with _ | c
          · by_cases hm1 : (CheckDuplicateOutputArtifactInCurrentSetUp aid ids).1
            · simpa [hm1] using ih i _ req b hb hp
            · simpa [hm1] using hstep _
          · by_cases hc : c = ErrorCode.alreadyExists
            · simpa [hc] using ih i _ req b hb hp
            · simpa [hc, GenOutcome.state] using ⟨hb, hp⟩
        · simpa [hs] using hstep _
      · simpa [GenerateEventLoop, hi, GenOutcome.state] using ⟨hb, hp⟩

/-- Every work item ever present in the SetUp loop's member state has its byte estimate equal to
the sum of its events' estimates, with all path steps fixed to "foo". -/
theorem setUpLoop_bytes (cfg : FillEventsConfig) (store : MetadataStore) :
    ∀ (ops : List (Nat × List (Int × Int))) (ids : List Int)
      (work : List (List Event × Nat)),
      (∀ wi ∈ work, wi.2 = batchTransferredBytes wi.1 ∧ ∀ e ∈ wi.1, e.path_steps = ["foo"]) →
      ∀ wi ∈ (SetUpLoop cfg store ops ids work).state.work_items,
        wi.2 = batchTransferredBytes wi.1 ∧ ∀ e ∈ wi.1, e.path_steps = ["foo"] := by
  intro ops
  induction ops with
  | nil =>
      intro ids work hw
      simpa [SetUpLoop, SetUpOutcome.state] using hw
  | cons op rest ih =>
      obtain ⟨n, draws⟩ := op
      intro ids work hw
      simp only [SetUpLoop]
      split
      next s hg =>
        refine ih _ _ ?_
        intro wi hwi
        rcases List.mem_append.1 hwi with hwi | hwi
        · exact hw wi hwi
        · have hb := genLoop_bytes cfg store n draws 0 ids [] 0 rfl (by simp)
          have hg2 : GenerateEventLoop cfg store n 0 draws ids [] 0 = GenOutcome.ok s := hg
          rw [hg2] at hb
          simp only [GenOutcome.state] at hb
          rcases List.mem_singleton.1 hwi with rfl
          exact ⟨hb.1, hb.2⟩
      next c s hg => simpa [SetUpOutcome.state] using hw
      next s hg => simpa [SetUpOutcome.state] using hw

/-- Claim C5: for every generated batch, the byte-size estimate equals the sum over its events
of the per-event estimate, and each per-event estimate is `8 * 2 + 1 = 17` bytes of fixed
overhead plus the length of the fixed step key "foo" of its single path step — hence at least
17. -/
theorem claim_C5_byte_accounting (cfg : FillEventsConfig) (store : MetadataStore)
    (ops : List (Nat × List (Int × Int))) :
    ∀ wi ∈ (SetUpLoop cfg store ops [] []).state.work_items,
      wi.2 = batchTransferredBytes wi.1 ∧
      ∀ e ∈ wi.1, GetTransferredBytes e = 8 * 2 + 1 + "foo".length ∧
        17 ≤ GetTransferredBytes e := by
  intro wi hwi
  obtain ⟨hb, hp⟩ := setUpLoop_bytes cfg store ops [] [] (by simp) wi hwi
  refine ⟨hb, fun e he => ?_⟩
  rw [GetTransferredBytes, hp e he]
  exact ⟨rfl, by simp [sumKeyLengths]⟩

/-- Claim C5 witness: the concrete two-event batch's estimate is the sum of its per-event
estimates, each 17 plus the step-key length. -/
theorem claim_C5_witness :
    (inputBatch, 40).2 = batchTransferredBytes (inputBatch, 40).1 ∧
    GetTransferredBytes ⟨EventType.INPUT, 1, 1, ["foo"]⟩ = 8 * 2 + 1 + "foo".length ∧
    17 ≤ GetTransferredBytes ⟨EventType.INPUT, 1, 1, ["foo"]⟩ := by
  have h := claim_C5_byte_accounting inputConfig failingStore inputOps (inputBatch, 40)
    (by decide)
  exact ⟨h.1, h.2 ⟨EventType.INPUT, 1, 1, ["foo"]⟩ (by decide)⟩

/-- Claim C6: when the generation of the next batch fails with a hard error, the whole SetUp
loop aborts at once with that error — the remaining operations are never processed and, since
only a fully successful SetUp marks the workload set up, no pre-generated batches (including
any completed before the failure, here an arbitrary `work`) remain as accepted work items. -/
theorem claim_C6_setup_failure_rejects_partial_work (cfg : FillEventsConfig)
    (store : MetadataStore) (n : Nat) (draws : List (Int × Int))
    (rest : List (Nat × List (Int × Int))) (ids : List Int)
    (work : List (List Event × Nat)) (c : ErrorCode) (s : GenState)
    (h : GenerateEvent cfg store n draws ids [] 0 = GenOutcome.err c s) :
    SetUpLoop cfg store ((n, draws) :: rest) ids work =
      SetUpOutcome.err c ⟨work, s.output_artifact_ids⟩ ∧
    acceptedWorkItems (SetUpLoop cfg store ((n, draws) :: rest) ids work) = [] := by
  have h1 : SetUpLoop cfg store ((n, draws) :: rest) ids work =
      SetUpOutcome.err c ⟨work, s.output_artifact_ids⟩ := by
    simp only [SetUpLoop, h]
  exact ⟨h1, by rw [h1, acceptedWorkItems]⟩

/-- Claim C6 witness: a NOT_FOUND failure on the next batch aborts SetUp although one batch was
already pre-generated, and no work items are accepted. -/
theorem claim_C6_witness :
    SetUpLoop outputConfig notFoundStore [(1, [(5, 7)])] [] [(sampleBatch, 20)] =
      SetUpOutcome.err ErrorCode.notFound ⟨[(sampleBatch, 20)], [5]⟩ ∧
    acceptedWorkItems
      (SetUpLoop outputConfig notFoundStore [(1, [(5, 7)])] [] [(sampleBatch, 20)]) = [] :=
  claim_C6_setup_failure_rejects_partial_work outputConfig notFoundStore 1 [(5, 7)] [] []
    [(sampleBatch, 20)] ErrorCode.notFound ⟨[], 0, [5]⟩ rfl

/-- Per-artifact OUTPUT counts add over concatenation. -/
theorem countOutputEvents_append (l1 l2 : List Event) (a : Int) :
    countOutputEvents (l1 ++ l2) a = countOutputEvents l1 a + countOutputEvents l2 a := by
  simp [countOutputEvents, List.countP_append]

/-- A nonzero OUTPUT count yields a witnessing OUTPUT event. -/
theorem countOutputEvents_ne_zero (l : List Event) (a : Int)
    (h : countOutputEvents l a ≠ 0) :
    ∃ e ∈ l, e.type = EventType.OUTPUT ∧ e.artifact_id = a := by
  have := List.countP_pos_iff.1 (Nat.pos_of_ne_zero h)
  simpa using this

/-- Against an honest store, the db duplicate check succeeds exactly when the store holds no
OUTPUT event for the artifact, and otherwise reports ALREADY_EXISTS. -/
theorem checkDb_honest (store : MetadataStore) (storeEvents : List Event)
    (hh : honestStore store storeEvents) (a : Int) :
    CheckDuplicateOutputArtifactInDb a store =
      (if countOutputEvents storeEvents a = 0 then Status.ok
       else Status.error ErrorCode.alreadyExists) := by
  rw [CheckDuplicateOutputArtifactInDb, hh a]
  by_cases hc : countOutputEvents storeEvents a = 0
  · have hany : (storeEvents.filter (fun e => decide (e.artifact_id = a))).any
        (fun e => decide (e.type = EventType.OUTPUT)) = false := by
      rw [Bool.eq_false_iff]
      intro hany
      obtain ⟨e, he, ht⟩ := List.any_eq_true.1 hany
      obtain ⟨he2, ha2⟩ := List.mem_filter.1 he
      have : countOutputEvents storeEvents a ≠ 0 := by
        have : 0 < countOutputEvents storeEvents a := by
          apply List.countP_pos_iff.2
          exact ⟨e, he2, by simp_all⟩
        omega
      exact this hc
    simp [hany, hc]
  · obtain ⟨e, he, ht, ha⟩ := countOutputEvents_ne_zero storeEvents a hc
    have hany : (storeEvents.filter (fun e => decide (e.artifact_id = a))).any
        (fun e => decide (e.type = EventType.OUTPUT)) = true := by
      apply List.any_eq_true.2
      exact ⟨e, List.mem_filter.2 ⟨he, by simp [ha]⟩, by simp [ht]⟩
    simp [hany, hc]

/-- Batch-event concatenation distributes over appending work items. -/
theorem allGeneratedEvents_append (w1 w2 : List (List Event × Nat)) :
    allGeneratedEvents (w1 ++ w2) = allGeneratedEvents w1 ++ allGeneratedEvents w2 := by
  induction w1 with
  | nil => simp [allGeneratedEvents]
  | cons wi r ih => simp [allGeneratedEvents, ih]

/-- Core invariant of the generation loop in an OUTPUT run against an honest store: when every
OUTPUT event among the prior events `P` and the request is covered by the run-scoped set, and
each artifact has at most one OUTPUT event across `P`, the request and the store, the same holds
of the loop's final request and set, whatever the outcome. -/
theorem genLoop_output_invariant (cfg : FillEventsConfig) (store : MetadataStore) (num : Nat)
    (storeEvents P : List Event) (hh : honestStore store storeEvents)
    (hs : cfg.specification = Specification.OUTPUT) :
    ∀ (draws : List (Int × Int)) (i : Nat) (ids : List Int) (req : List Event) (b : Nat),
      (∀ e ∈ P ++ req, e.type = EventType.OUTPUT → e.artifact_id ∈ ids) →
      (∀ a, countOutputEvents (P ++ req) a + countOutputEvents storeEvents a ≤ 1) →
      ((∀ e ∈ P ++ (GenerateEventLoop cfg store num i draws ids req b).state.put_request,
          e.type = EventType.OUTPUT →
          e.artifact_id ∈
            (GenerateEventLoop cfg store num i draws ids req b).state.output_artifact_ids) ∧
       (∀ a, countOutputEvents
            (P ++ (GenerateEventLoop cfg store num i draws ids req b).state.put_request) a +
          countOutputEvents storeEvents a ≤ 1)) := by
  intro draws
  induction draws with
  | nil =>
      intro i ids req b H1 H2
      simp only [GenerateEventLoop]
      split <;> exact ⟨H1, H2⟩
  | cons d rest ih =>
      obtain ⟨aid, eid⟩ := d
      intro i ids req b H1 H2
      by_cases hi : i < num
      · have hdbeq := checkDb_honest store storeEvents hh aid
        by_cases hstore : countOutputEvents storeEvents aid = 0
        · rw [if_pos hstore] at hdbeq
          by_cases hm : aid ∈ ids
          · have hgoal : GenerateEventLoop cfg store num i ((aid, eid) :: rest) ids req b =
                GenerateEventLoop cfg store num i rest ids req b := by
              simp [GenerateEventLoop, hi, hs, hdbeq,
                CheckDuplicateOutputArtifactInCurrentSetUp, hm]
            rw [hgoal]
            exact ih i ids req b H1 H2
          · have hreq : countOutputEvents (P ++ req) aid = 0 := by
              by_contra hno
              obtain ⟨e, he, ht, ha⟩ := countOutputEvents_ne_zero _ _ hno
              exact hm (ha ▸ H1 e he ht)
            have hgoal : GenerateEventLoop cfg store num i ((aid, eid) :: rest) ids req b =
                GenerateEventLoop cfg store num (i + 1) rest (aid :: ids)
                  (req ++ [⟨EventType.OUTPUT, aid, eid, ["foo"]⟩])
                  (b + GetTransferredBytes ⟨EventType.OUTPUT, aid, eid, ["foo"]⟩) := by
              simp [GenerateEventLoop, hi, hs, hdbeq,
                CheckDuplicateOutputArtifactInCurrentSetUp, hm, SetEvent]
            rw [hgoal]
            refine ih (i + 1) (aid :: ids)
              (req ++ [⟨EventType.OUTPUT, aid, eid, ["foo"]⟩]) _ ?_ ?_
            · intro e he ht
              rw [← List.append_assoc] at he
              rcases List.mem_append.1 he with he | he
              · exact List.mem_cons_of_mem _ (H1 e he ht)
              · rcases List.mem_singleton.1 he with rfl
                exact List.mem_cons_self _ _
            · intro a
              rw [← List.append_assoc, countOutputEvents_append]
              by_cases ha : a = aid
              · subst ha
                have hev : countOutputEvents
                    ([⟨EventType.OUTPUT, a, eid, ["foo"]⟩] : List Event) a = 1 := by
                  simp [countOutputEvents, List.countP_cons]
                rw [hreq, hev, hstore]
              · have hev : countOutputEvents
                    ([⟨EventType.OUTPUT, aid, eid, ["foo"]⟩] : List Event) a = 0 := by
                  simp [countOutputEvents, List.countP_cons, Ne.symm ha]
                rw [hev, Nat.add_zero]
                exact H2 a
        · rw [if_neg hstore] at hdbeq
          by_cases hm : aid ∈ ids
          · have hgoal : GenerateEventLoop cfg store num i ((aid, eid) :: rest) ids req b =
                GenerateEventLoop cfg store num i rest ids req b := by
              simp [GenerateEventLoop, hi, hs, hdbeq,
                CheckDuplicateOutputArtifactInCurrentSetUp, hm]
            rw [hgoal]
            exact ih i ids req b H1 H2
          · have hgoal : GenerateEventLoop cfg store num i ((aid, eid) :: rest) ids req b =
                GenerateEventLoop cfg store num i rest (aid :: ids) req b := by
              simp [GenerateEventLoop, hi, hs, hdbeq,
                CheckDuplicateOutputArtifactInCurrentSetUp, hm]
            rw [hgoal]
            exact ih i (aid :: ids) req b
              (fun e he ht => List.mem_cons_of_mem _ (H1 e he ht)) H2
      · simp only [GenerateEventLoop, hi, if_false]
        exact ⟨H1, H2⟩

/-- SetUp-level lift of the generation invariant: with every OUTPUT artifact of the already
generated batches covered by the run-scoped set and at most one OUTPUT event per artifact across
the generated batches and the honest store, the SetUp loop preserves both properties down to its
final member state, whatever its outcome. -/
theorem setUpLoop_output_invariant (cfg : FillEventsConfig) (store : MetadataStore)
    (storeEvents : List Event) (hh : honestStore store storeEvents)
    (hs : cfg.specification = Specification.OUTPUT) :
    ∀ (ops : List (Nat × List (Int × Int))) (ids : List Int)
      (work : List (List Event × Nat)),
      (∀ e ∈ allGeneratedEvents work, e.type = EventType.OUTPUT → e.artifact_id ∈ ids) →
      (∀ a, countOutputEvents (allGeneratedEvents work) a +
        countOutputEvents storeEvents a ≤ 1) →
      ((∀ e ∈ allGeneratedEvents (SetUpLoop cfg store ops ids work).state.work_items,
          e.type = EventType.OUTPUT →
          e.artifact_id ∈ (SetUpLoop cfg store ops ids work).state.output_artifact_ids) ∧
       (∀ a, countOutputEvents
            (allGeneratedEvents (SetUpLoop cfg store ops ids work).state.work_items) a +
          countOutputEvents storeEvents a ≤ 1)) := by
  intro ops
  induction ops with
  | nil =>
      intro ids work H1 H2
      simp only [SetUpLoop]
      exact ⟨H1, H2⟩
  | cons op rest ih =>
      obtain ⟨n, draws⟩ := op
      intro ids work H1 H2
      simp only [SetUpLoop]
      split
      next s hg =>
        have hg2 : GenerateEventLoop cfg store n 0 draws ids [] 0 = GenOutcome.ok s := hg
        have hginv := genLoop_output_invariant cfg store n storeEvents
          (allGeneratedEvents work) hh hs draws 0 ids [] 0
          (by simpa using H1) (by simpa using H2)
        rw [hg2] at hginv
        simp only [GenOutcome.state] at hginv
        refine ih s.output_artifact_ids (work ++ [(s.put_request, s.curr_bytes)]) ?_ ?_
        · intro e he ht
          rw [allGeneratedEvents_append] at he
          rcases List.mem_append.1 he with he | he
          · exact hginv.1 e (List.mem_append.2 (Or.inl he)) ht
          · have he2 : e ∈ s.put_request := by
              simpa [allGeneratedEvents] using he
            exact hginv.1 e (List.mem_append.2 (Or.inr he2)) ht
        · intro a
          have := hginv.2 a
          rw [countOutputEvents_append] at this
          rw [allGeneratedEvents_append]
          have hsingle : allGeneratedEvents [(s.put_request, s.curr_bytes)] =
              s.put_request := by simp [allGeneratedEvents]
          rw [hsingle, countOutputEvents_append]
          omega
      next c s hg =>
        have hg2 : GenerateEventLoop cfg store n 0 draws ids [] 0 = GenOutcome.err c s := hg
        constructor
        · intro e he ht
          have hmono := genLoop_ids_mono cfg store n draws 0 ids [] 0
            e.artifact_id (H1 e he ht)
          rw [hg2] at hmono
          exact hmono
        · exact H2
      next s hg =>
        have hg2 : GenerateEventLoop cfg store n 0 draws ids [] 0 = GenOutcome.noFuel s := hg
        constructor
        · intro e he ht
          have hmono := genLoop_ids_mono cfg store n draws 0 ids [] 0
            e.artifact_id (H1 e he ht)
          rw [hg2] at hmono
          exact hmono
        · exact H2

/-- Claim C2: in an OUTPUT-configured run against an honest store (the query faithfully reports
the persisted events) whose persisted events already satisfy the at-most-one-OUTPUT-per-artifact
invariant, every artifact is referenced by at most one OUTPUT event across all batches generated
by SetUp plus the store's pre-existing persisted events. -/
theorem claim_C2_at_most_one_output_per_artifact (cfg : FillEventsConfig)
    (store : MetadataStore) (ops : List (Nat × List (Int × Int))) (storeEvents : List Event)
    (hh : honestStore store storeEvents)
    (hs : cfg.specification = Specification.OUTPUT)
    (hwf : ∀ a, countOutputEvents storeEvents a ≤ 1) (a : Int) :
    countOutputEvents
        (allGeneratedEvents (SetUpLoop cfg store ops [] []).state.work_items) a +
      countOutputEvents storeEvents a ≤ 1 :=
  (setUpLoop_output_invariant cfg store storeEvents hh hs ops [] []
    (by simp [allGeneratedEvents])
    (fun a2 => by simpa [allGeneratedEvents, countOutputEvents] using hwf a2)).2 a

/-- Claim C2 witness: against the honest sample store (which already holds one OUTPUT event for
artifact 1), a concrete OUTPUT run leaves artifact 1 with at most one OUTPUT event overall. -/
theorem claim_C2_witness :
    countOutputEvents
        (allGeneratedEvents (SetUpLoop outputConfig sampleStore
          [(1, [(1, 5), (2, 6)])] [] []).state.work_items) 1 +
      countOutputEvents sampleStoreEvents 1 ≤ 1 :=
  claim_C2_at_most_one_output_per_artifact outputConfig sampleStore [(1, [(1, 5), (2, 6)])]
    sampleStoreEvents (fun _ => rfl) rfl (fun _ => List.countP_le_length _) 1

end MlMetadata
